import Mathlib

/-!
Verification development for the demand-forecasting core of the drugtrack
repository (`ai_forecast/forecast_utils.py` and `ai_forecast/views.py`).

Dates are modelled as serial day numbers (days since 1970-01-01, as an
integer), with the civil-calendar conversions needed for `day_of_year`
(`timetuple().tm_yday`), `weekday()` and the `'%Y-%m'` month key.
Demand values and all regression arithmetic are exact rationals; the two
quantities the source computes through `sqrt` (the residual standard
deviation) or transcendental functions (the seasonal `sin` factor) are
real-valued and are handled either as real-valued definitions or as
relationally-constrained parameters.
-/

namespace Drugtrack

/-! ## Calendar arithmetic (serial day number ↔ civil date)

`daysFromCivil`/`civilFromDays` follow the standard era-based civil
calendar algorithms, with truncating integer division exactly as the
C/Python runtimes perform it. -/

/-- Serial day number of the civil date `y-m-d` (day 0 = 1970-01-01). -/
def daysFromCivil (y m d : ℤ) : ℤ :=
  let y1 : ℤ := y - (if m ≤ 2 then 1 else 0)
  let era : ℤ := (if 0 ≤ y1 then y1 else y1 - 399).tdiv 400
  let yoe : ℤ := y1 - era * 400
  let mp : ℤ := (m + 9).emod 12
  let doy : ℤ := (153 * mp + 2).tdiv 5 + d - 1
  let doe : ℤ := yoe * 365 + yoe.tdiv 4 - yoe.tdiv 100 + doy
  era * 146097 + doe - 719468

/-- Civil date `(year, month, day)` of a serial day number. -/
def civilFromDays (z0 : ℤ) : ℤ × ℤ × ℤ :=
  let z : ℤ := z0 + 719468
  let era : ℤ := (if 0 ≤ z then z else z - 146096).tdiv 146097
  let doe : ℤ := z - era * 146097
  let yoe : ℤ := (doe - doe.tdiv 1460 + doe.tdiv 36524 - doe.tdiv 146096).tdiv 365
  let y : ℤ := yoe + era * 400
  let doy : ℤ := doe - (365 * yoe + yoe.tdiv 4 - yoe.tdiv 100)
  let mp : ℤ := (5 * doy + 2).tdiv 153
  let d : ℤ := doy - (153 * mp + 2).tdiv 5 + 1
  let m : ℤ := mp + (if mp < 10 then 3 else -9)
  (y + (if m ≤ 2 then 1 else 0), m, d)

/-- Calendar year of a serial day number. -/
def yearOf (z : ℤ) : ℤ := (civilFromDays z).1

/-- Calendar month (1..12) of a serial day number. -/
def monthOf (z : ℤ) : ℤ := (civilFromDays z).2.1

/-- Python `date.timetuple().tm_yday`: 1-based ordinal day in the year. -/
def dayOfYear (z : ℤ) : ℤ := z - daysFromCivil (yearOf z) 1 1 + 1

/-- Python `date.weekday()`: Monday = 0 .. Sunday = 6 (day 0 is a Thursday). -/
def pyWeekday (z : ℤ) : ℤ := (z + 3).emod 7

/-- The source's weekend test `date.weekday() >= 5`. -/
def isWeekend (z : ℤ) : Bool := 5 ≤ pyWeekday z

/-- The `'%Y-%m'` grouping key, encoded order-isomorphically as `year*12 + month`
(lexicographic order on the `YYYY-MM` strings used by the source coincides with
this order for the dates in play). -/
def monthKey (z : ℤ) : ℤ := yearOf z * 12 + monthOf z

example : daysFromCivil 1970 1 1 = 0 := by decide
example : civilFromDays 0 = (1970, 1, 1) := by decide
example : dayOfYear (daysFromCivil 2025 12 31) = 365 := by decide
example : pyWeekday (daysFromCivil 2025 12 31) = 2 := by decide
example : pyWeekday (daysFromCivil 2025 1 6) = 0 := by decide
example : isWeekend (daysFromCivil 2025 1 11) = true := by decide
example : monthKey (daysFromCivil 2025 2 3) = 2025 * 12 + 2 := by decide

/-! ## Elementary statistics over rational lists -/

/-- Arithmetic mean (`.mean()`); the mean of the empty list degenerates to 0. -/
def qmean (l : List ℚ) : ℚ := l.sum / l.length

/-- Population variance (`np.std(·)**2`, `ddof = 0`). -/
def popVar (l : List ℚ) : ℚ := ((l.map fun x => (x - qmean l) ^ 2).sum) / l.length

/-- Sample variance (pandas `.std()**2`, `ddof = 1`). -/
def sampleVar (l : List ℚ) : ℚ := ((l.map fun x => (x - qmean l) ^ 2).sum) / (l.length - 1 : ℚ)

example : qmean [1, 2, 3] = 2 := by norm_num [qmean]
example : popVar [1, 3] = 1 := by norm_num [popVar, qmean]

theorem qmean_nonneg {l : List ℚ} (h : ∀ x ∈ l, 0 ≤ x) : 0 ≤ qmean l := by
  unfold qmean
  have h1 : 0 ≤ l.sum := List.sum_nonneg h
  have h2 : (0 : ℚ) ≤ l.length := by positivity
  exact div_nonneg h1 h2

theorem popVar_nonneg (l : List ℚ) : 0 ≤ popVar l := by
  unfold popVar
  have h1 : 0 ≤ (l.map fun x => (x - qmean l) ^ 2).sum := by
    refine List.sum_nonneg ?_
    intro x hx
    obtain ⟨y, _, rfl⟩ := List.mem_map.1 hx
    positivity
  have h2 : (0 : ℚ) ≤ l.length := by positivity
  exact div_nonneg h1 h2

/-! ## Python `round(x, 2)` (banker's rounding, idealized over ℚ) -/

/-- Round to nearest integer, ties to even (Python `round` semantics on
exact values). -/
def roundHE (q : ℚ) : ℤ :=
  let f : ℤ := ⌊q⌋
  let r : ℚ := q - f
  if r < 1 / 2 then f
  else if 1 / 2 < r then f + 1
  else if f % 2 = 0 then f else f + 1

/-- Python `round(q, 2)`. -/
def rnd2 (q : ℚ) : ℚ := (roundHE (q * 100) : ℚ) / 100

theorem roundHE_intCast (n : ℤ) : roundHE (n : ℚ) = n := by
  simp [roundHE]

/-- Evaluation helper: when `q * 100` is the integer `n`, `rnd2 q = n / 100`. -/
theorem rnd2_eq_of_mul_hundred (q : ℚ) (n : ℤ) (h : q * 100 = (n : ℚ)) :
    rnd2 q = (n : ℚ) / 100 := by
  unfold rnd2
  rw [h, roundHE_intCast]

example : rnd2 50 = 50 := by
  rw [rnd2_eq_of_mul_hundred 50 5000 (by norm_num)]; norm_num

example : rnd2 (100 / 6) = 1667 / 100 := by
  have hf : ⌊(5000 / 3 : ℚ)⌋ = 1666 := by
    rw [Int.floor_eq_iff] <;> norm_num
  unfold rnd2 roundHE
  norm_num [hf]

example : roundHE (5 / 2) = 2 := by
  have hf : ⌊(5 / 2 : ℚ)⌋ = 2 := by rw [Int.floor_eq_iff] <;> norm_num
  unfold roundHE
  norm_num [hf]

example : roundHE (7 / 2) = 4 := by
  have hf : ⌊(7 / 2 : ℚ)⌋ = 3 := by rw [Int.floor_eq_iff] <;> norm_num
  unfold roundHE
  norm_num [hf]

theorem roundHE_nonneg {q : ℚ} (h : 0 ≤ q) : 0 ≤ roundHE q := by
  unfold roundHE
  have hf : (0 : ℤ) ≤ ⌊q⌋ := Int.floor_nonneg.2 h
  dsimp only
  split
  · exact hf
  · split
    · omega
    · split
      · exact hf
      · omega

theorem rnd2_nonneg {q : ℚ} (h : 0 ≤ q) : 0 ≤ rnd2 q := by
  unfold rnd2
  have h1 : 0 ≤ roundHE (q * 100) := roundHE_nonneg (by positivity)
  have h2 : (0 : ℚ) ≤ (roundHE (q * 100) : ℚ) := by exact_mod_cast h1
  positivity

/-! ## Data model

A row of `drugs_data` carries `(drug_name, date, demand)`; the `month` and
`week_day` columns of the source are derived from `date` and are recomputed
where needed (`monthKey`, `pyWeekday`). -/

/-- One row of the `drugs_data` frame: `(drug_name, date, demand)`. -/
abbrev Row : Type := String × ℤ × ℤ

/-- The feature triple `['days_since_start', 'day_of_year', 'is_weekend']`
(the boolean encoded 0/1, as `LinearRegression` receives it). -/
structure Feat where
  el : ℚ
  doy : ℚ
  wk : ℚ
deriving DecidableEq, Repr

/-- Feature row for a date, relative to the series start
(`days_since_start = (date - date.min()).days`, `day_of_year`,
`is_weekend = weekday >= 5`). -/
def featRow (start d : ℤ) : Feat :=
  { el := ((d - start : ℤ) : ℚ)
    doy := ((dayOfYear d : ℤ) : ℚ)
    wk := if isWeekend d then 1 else 0 }

/-- The affine predictor obtained from `StandardScaler` + `LinearRegression`,
expressed in the original (unscaled) feature coordinates: per-column affine
standardization composed with a linear model is an affine function of the raw
features, and for integer/rational inputs its coefficients are rational. -/
structure LinModel where
  w1 : ℚ
  w2 : ℚ
  w3 : ℚ
  b : ℚ
deriving DecidableEq, Repr

/-- `model.predict` on one feature row (composite scaler+regression map). -/
def predict (m : LinModel) (x : Feat) : ℚ :=
  m.b + m.w1 * x.el + m.w2 * x.doy + m.w3 * x.wk

/-- First-order optimality (normal equations) of ordinary least squares for
the affine model: the residuals are orthogonal to the intercept and to each
feature column. This characterizes the least-squares minimizers that
`LinearRegression.fit` produces. -/
def NormalEqs (X : List Feat) (y : List ℚ) (m : LinModel) : Prop :=
  (List.zipWith (fun yi x => yi - predict m x) y X).sum = 0 ∧
  (List.zipWith (fun yi x => (yi - predict m x) * x.el) y X).sum = 0 ∧
  (List.zipWith (fun yi x => (yi - predict m x) * x.doy) y X).sum = 0 ∧
  (List.zipWith (fun yi x => (yi - predict m x) * x.wk) y X).sum = 0

/-- The per-column weight used by the scaled minimum-norm tie-break: the
population variance of the column, replaced by 1 for a constant column
(`StandardScaler` sets `scale_ = 1` when the variance is 0, and
`scipy.linalg.lstsq` minimizes the Euclidean norm of the coefficient vector
in the *scaled* coordinates, i.e., the `Σ var_j · w_j²` seminorm in the
original coordinates). -/
def colVarAdj (l : List ℚ) : ℚ := if popVar l = 0 then 1 else popVar l

/-- Squared norm of the coefficient vector in scaled coordinates. -/
def wNormSq (X : List Feat) (m : LinModel) : ℚ :=
  colVarAdj (X.map Feat.el) * m.w1 ^ 2 +
  colVarAdj (X.map Feat.doy) * m.w2 ^ 2 +
  colVarAdj (X.map Feat.wk) * m.w3 ^ 2

/-- Characterization of the model `scaler.fit_transform` + `LinearRegression.fit`
actually produce: a least-squares solution (normal equations) whose coefficient
vector has minimal norm in the scaled coordinates (this is what the SVD-based
`lstsq` backend returns, also for rank-deficient feature matrices). -/
def IsFit (X : List Feat) (y : List ℚ) (m : LinModel) : Prop :=
  NormalEqs X y m ∧ ∀ m', NormalEqs X y m' → wNormSq X m ≤ wNormSq X m'

/-- Rank deficiency of the historical feature matrix (including the intercept
column): some nontrivial affine combination of the feature columns vanishes. -/
def rankDeficient (X : List Feat) : Prop :=
  ∃ a c1 c2 c3 : ℚ, (a ≠ 0 ∨ c1 ≠ 0 ∨ c2 ≠ 0 ∨ c3 ≠ 0) ∧
    ∀ x ∈ X, a + c1 * x.el + c2 * x.doy + c3 * x.wk = 0

/-- Characterization of `np.std(residuals)`: the nonnegative real whose square
is the population variance of the residual list. -/
def IsStd (r : List ℚ) (σ : ℝ) : Prop := 0 ≤ σ ∧ σ ^ 2 = ((popVar r : ℚ) : ℝ)

/-- `sklearn`'s `r2_score` (used by `model.score`): `1 - ss_res / ss_tot`,
with the degenerate zero-total-variance case yielding 1.0 when the fit is
exact and 0.0 otherwise. -/
def r2Score (yTrue yPred : List ℚ) : ℚ :=
  let ssRes : ℚ := (List.zipWith (fun a b => (a - b) ^ 2) yTrue yPred).sum
  let ssTot : ℚ := (yTrue.map fun a => (a - qmean yTrue) ^ 2).sum
  if ssTot = 0 then (if ssRes = 0 then 1 else 0) else 1 - ssRes / ssTot

theorem colVarAdj_pos (l : List ℚ) : 0 < colVarAdj l := by
  unfold colVarAdj
  split
  · norm_num
  · rcases lt_or_eq_of_le (popVar_nonneg l) with h | h
    · exact h
    · exact absurd h.symm (by assumption)

theorem wNormSq_nonneg (X : List Feat) (m : LinModel) : 0 ≤ wNormSq X m := by
  unfold wNormSq
  have h1 := le_of_lt (colVarAdj_pos (X.map Feat.el))
  have h2 := le_of_lt (colVarAdj_pos (X.map Feat.doy))
  have h3 := le_of_lt (colVarAdj_pos (X.map Feat.wk))
  positivity

/-! ## The forecaster pipeline (`DemandForecaster.forecast_demand`) -/

/-- Stable insertion (ascending by date) used to model `sort_values('date')`. -/
def insertByDate (x : ℤ × ℤ) : List (ℤ × ℤ) → List (ℤ × ℤ)
  | [] => [x]
  | y :: ys => if x.1 < y.1 then x :: y :: ys else y :: insertByDate x ys

/-- Stable sort of a `(date, demand)` series, ascending by date. -/
def sortByDate (l : List (ℤ × ℤ)) : List (ℤ × ℤ) :=
  l.foldl (fun acc x => insertByDate x acc) []

/-- Column minimum (`drug_data['date'].min()`); 0 on the empty frame. -/
def listMin (l : List ℤ) : ℤ := l.foldl min (l.headD 0)

/-- Column maximum (`drug_data['date'].max()`); 0 on the empty frame. -/
def listMax (l : List ℤ) : ℤ := l.foldl max (l.headD 0)

/-- `self.drugs_data[self.drugs_data['drug_name'] == drug_name]`. -/
def filteredRows (data : List Row) (name : String) : List Row :=
  data.filter fun r => r.1 == name

/-- The drug's `(date, demand)` series, sorted by date. -/
def drugSeries (data : List Row) (name : String) : List (ℤ × ℤ) :=
  sortByDate ((filteredRows data name).map fun r => (r.2.1, r.2.2))

/-- The sorted historical date column. -/
def histDates (data : List Row) (name : String) : List ℤ :=
  (drugSeries data name).map Prod.fst

/-- The historical feature matrix `X`. -/
def histFeatures (data : List Row) (name : String) : List Feat :=
  (drugSeries data name).map fun p => featRow (listMin (histDates data name)) p.1

/-- The historical target column `y`. -/
def histValues (data : List Row) (name : String) : List ℚ :=
  (drugSeries data name).map fun p => ((p.2 : ℤ) : ℚ)

/-- `residuals = y - self.model.predict(X_scaled)`. -/
def histResiduals (data : List Row) (name : String) (m : LinModel) : List ℚ :=
  List.zipWith (fun yi x => yi - predict m x) (histValues data name) (histFeatures data name)

/-- `pd.date_range(start=last_date + 1 day, periods=forecast_days)`. -/
def futureDatesOf (data : List Row) (name : String) (h : ℕ) : List ℤ :=
  (List.range h).map fun i : ℕ => listMax (histDates data name) + 1 + (i : ℤ)

/-- Future feature rows, built with the same series start. -/
def futureFeatures (data : List Row) (name : String) (h : ℕ) : List Feat :=
  (futureDatesOf data name h).map (featRow (listMin (histDates data name)))

/-- `predictions = np.maximum(self.model.predict(X_future_scaled), 0)`. -/
def forecastValues (data : List Row) (name : String) (h : ℕ) (m : LinModel) : List ℚ :=
  (futureFeatures data name h).map fun x => max (predict m x) 0

/-- `confidence_upper = predictions + 1.96 * std_residuals`. -/
noncomputable def confUpper (data : List Row) (name : String) (h : ℕ) (m : LinModel)
    (σ : ℝ) : List ℝ :=
  (forecastValues data name h m).map fun p : ℚ => (p : ℝ) + (196 / 100) * σ

/-- `confidence_lower = np.maximum(predictions - 1.96 * std_residuals, 0)`. -/
noncomputable def confLower (data : List Row) (name : String) (h : ℕ) (m : LinModel)
    (σ : ℝ) : List ℝ :=
  (forecastValues data name h m).map fun p : ℚ => max ((p : ℝ) - (196 / 100) * σ) 0

/-- `self.model.score(X_scaled, y)`. -/
def modelScore (data : List Row) (name : String) (m : LinModel) : ℚ :=
  r2Score (histValues data name) ((histFeatures data name).map (predict m))

/-- The dictionary `forecast_demand` returns on success. -/
structure ForecastResult where
  forecast_dates : List ℤ
  forecast_values : List ℚ
  confidence_upper : List ℝ
  confidence_lower : List ℝ
  historical_dates : List ℤ
  historical_values : List ℤ
  model_score : ℚ

/-- The state `StandardScaler` keeps after `fit_transform` (its `mean_` and
`var_` attributes; `scale_` is determined by `var_`). -/
structure ScalerParams where
  colMean : Feat
  colVariance : Feat
deriving DecidableEq, Repr

/-- `self.scaler.fit(X)` outcome on the historical feature matrix. -/
def scalerFit (X : List Feat) : ScalerParams :=
  { colMean := { el := qmean (X.map Feat.el), doy := qmean (X.map Feat.doy),
                 wk := qmean (X.map Feat.wk) }
    colVariance := { el := popVar (X.map Feat.el), doy := popVar (X.map Feat.doy),
                     wk := popVar (X.map Feat.wk) } }

/-- The mutable state of a `DemandForecaster` instance: the generated data
frame plus the `self.scaler` and `self.model` attributes (absent parameters
modelled as `none`, i.e., a freshly constructed, unfitted estimator). -/
structure ForecasterState where
  drugsData : List Row
  scaler : Option ScalerParams
  model : Option LinModel

/-- `forecast_demand`, with the forecaster instance passed explicitly (Python
`self`) and returned alongside the result. The fitted regression coefficients
`m` and the residual standard deviation `σ` are parameters constrained by
`IsFit`/`IsStd` in the theorems, standing for the values the numeric library
calls return. -/
noncomputable def forecast_demand (s : ForecasterState) (name : String) (h : ℕ)
    (m : LinModel) (σ : ℝ) : ForecasterState × Except String ForecastResult :=
  if (filteredRows s.drugsData name).isEmpty then
    (s, .error ("No data found for drug: " ++ name))
  else
    ({ s with scaler := some (scalerFit (histFeatures s.drugsData name)),
              model := some m },
     .ok { forecast_dates := futureDatesOf s.drugsData name h
           forecast_values := forecastValues s.drugsData name h m
           confidence_upper := confUpper s.drugsData name h m σ
           confidence_lower := confLower s.drugsData name h m σ
           historical_dates := histDates s.drugsData name
           historical_values := (drugSeries s.drugsData name).map Prod.snd
           model_score := modelScore s.drugsData name m })

/-- The result component of a `forecast_demand` call on a fresh forecaster. -/
noncomputable def forecastOf (data : List Row) (name : String) (h : ℕ)
    (m : LinModel) (σ : ℝ) : Except String ForecastResult :=
  (forecast_demand ⟨data, none, none⟩ name h m σ).2

/-! ## Synthetic generator (`_generate_dummy_data`, per-day value)

The normal noise draw is treated as an explicit input. -/

/-- The real-valued product
`base_demand * seasonal_factor * trend_factor * noise_factor * weekend_factor`
computed for one day (associating left-to-right as the source writes it). -/
noncomputable def genProduct (base amp rate : ℝ) (start d : ℤ) (noise : ℝ) : ℝ :=
  base * (1 + amp * Real.sin (2 * Real.pi * ((dayOfYear d : ℤ) : ℝ) / 365)) *
    (1 + rate * (((d - start : ℤ) : ℝ) / 365)) * noise *
    (if isWeekend d then (7 : ℝ) / 10 else 1)

/-- Python `int(·)`: truncation toward zero. -/
noncomputable def intTrunc (x : ℝ) : ℤ := if 0 ≤ x then ⌊x⌋ else ⌈x⌉

/-- One generated demand value: `demand = int(product); demand = max(0, demand)`. -/
noncomputable def genDemand (base amp rate : ℝ) (start d : ℤ) (noise : ℝ) : ℤ :=
  max 0 (intTrunc (genProduct base amp rate start d noise))

/-- Modelled from the spec (section 4.1) for comparison with the source: the
spec states `value = max(0, round(...))` with rounding to the nearest integer
instead of the source's truncating `int(...)`. -/
noncomputable def genDemandSpec (base amp rate : ℝ) (start d : ℤ) (noise : ℝ) : ℤ :=
  max 0 (round (genProduct base amp rate start d noise))

/-! ## Summary statistics (`get_summary_statistics`, per drug) -/

/-- Insert a month key into an ascending list of distinct keys (models the
sorted unique group index that `groupby('month')` produces). -/
def insertKey (k : ℤ) : List ℤ → List ℤ
  | [] => [k]
  | x :: xs => if k < x then k :: x :: xs else if k = x then x :: xs else x :: insertKey k xs

/-- The ascending list of distinct month keys of a `(date, demand)` series. -/
def monthsOf (s : List (ℤ × ℤ)) : List ℤ :=
  s.foldl (fun acc p => insertKey (monthKey p.1) acc) []

/-- Mean demand of one month group (`groupby('month')['demand'].mean()`). -/
def monthMean (s : List (ℤ × ℤ)) (k : ℤ) : ℚ :=
  qmean ((s.filter fun p => monthKey p.1 == k).map fun p => ((p.2 : ℤ) : ℚ))

/-- The chronologically ordered monthly averages. -/
def monthlyAvgList (s : List (ℤ × ℤ)) : List ℚ :=
  (monthsOf s).map (monthMean s)

/-- `round(monthly_avg.iloc[-1], 2) if not monthly_avg.empty else 0`. -/
def recentMonthAvg (s : List (ℤ × ℤ)) : ℚ :=
  if monthlyAvgList s = [] then 0 else rnd2 ((monthlyAvgList s).getLastD 0)

/-- `round(monthly_avg.iloc[-2], 2) if len(monthly_avg) > 1 else 0`. -/
def prevMonthAvg (s : List (ℤ × ℤ)) : ℚ :=
  if 1 < (monthlyAvgList s).length then
    rnd2 ((monthlyAvgList s).getD ((monthlyAvgList s).length - 2) 0)
  else 0

/-- The month-over-month growth rate: the source guards on
`previous_month_avg > 0`. -/
def monthlyGrowthRate (s : List (ℤ × ℤ)) : ℚ :=
  if 0 < prevMonthAvg s then
    rnd2 ((recentMonthAvg s - prevMonthAvg s) / prevMonthAvg s * 100)
  else 0

/-- The per-drug summary dictionary. -/
structure SummaryStats where
  total_demand_last_year : ℤ
  average_daily_demand : ℚ
  max_demand : ℤ
  min_demand : ℤ
  demand_volatility : ℝ
  recent_month_avg : ℚ
  previous_month_avg : ℚ
  monthly_growth_rate : ℚ

/-- Banker's rounding of a real to two decimals (for the one field computed
from a square root). -/
noncomputable def rnd2R (x : ℝ) : ℝ :=
  ((if x * 100 - ⌊x * 100⌋ < 1 / 2 then ⌊x * 100⌋
    else if 1 / 2 < x * 100 - ⌊x * 100⌋ then ⌊x * 100⌋ + 1
    else if ⌊x * 100⌋ % 2 = 0 then ⌊x * 100⌋ else ⌊x * 100⌋ + 1 : ℤ) : ℝ) / 100

/-- The summary computed for one drug's `(date, demand)` series
(the body of the loop in `get_summary_statistics`). -/
noncomputable def summarize (s : List (ℤ × ℤ)) : SummaryStats :=
  let demands : List ℚ := s.map fun p => ((p.2 : ℤ) : ℚ)
  { total_demand_last_year := (s.map Prod.snd).sum
    average_daily_demand := rnd2 (qmean demands)
    max_demand := listMax (s.map Prod.snd)
    min_demand := listMin (s.map Prod.snd)
    demand_volatility := rnd2R (Real.sqrt ((sampleVar demands : ℚ) : ℝ))
    recent_month_avg := recentMonthAvg s
    previous_month_avg := prevMonthAvg s
    monthly_growth_rate := monthlyGrowthRate s }

/-! ## Top drugs by demand (`get_top_drugs_by_demand`) -/

/-- Stable insertion ascending by name (models the name-ascending group index
of `groupby('drug_name')`). -/
def insertByName (x : String × List ℤ) :
    List (String × List ℤ) → List (String × List ℤ)
  | [] => [x]
  | y :: ys => if x.1 < y.1 then x :: y :: ys else y :: insertByName x ys

/-- Sort the per-item series mapping ascending by item name. -/
def sortByName (l : List (String × List ℤ)) : List (String × List ℤ) :=
  l.foldl (fun acc x => insertByName x acc) []

/-- `groupby('drug_name')['demand'].sum()`: name-ascending totals. -/
def totalsList (data : List (String × List ℤ)) : List (String × ℤ) :=
  (sortByName data).map fun p => (p.1, p.2.sum)

/-- `drug_totals.sum()`: the grand total over all items. -/
def grandTotal (data : List (String × List ℤ)) : ℤ :=
  ((totalsList data).map Prod.snd).sum

/-- Stable insertion descending by total (`sort_values(ascending=False)`,
keeping the relative order of equal totals). -/
def insertByTot (x : String × ℤ) : List (String × ℤ) → List (String × ℤ)
  | [] => [x]
  | y :: ys => if y.2 < x.2 then x :: y :: ys else y :: insertByTot x ys

/-- Stable descending sort by total. -/
def sortByTot (l : List (String × ℤ)) : List (String × ℤ) :=
  l.foldl (fun acc x => insertByTot x acc) []

/-- The demand series stored for an item in the mapping. -/
def seriesOf (data : List (String × List ℤ)) (name : String) : List ℤ :=
  ((data.filter fun p => p.1 == name).headD ("", [])).2

/-- `.tail(30)`: the last 30 entries. -/
def tail30 (l : List ℤ) : List ℤ := l.drop (l.length - 30)

/-- One entry of the `top_drugs` list. -/
structure RankEntry where
  rank : ℕ
  drug_name : String
  total_annual_demand : ℤ
  average_daily_demand : ℚ
  percentage_of_total : ℚ
deriving DecidableEq, Repr

/-- Build one ranked entry (the body of the enumeration loop). -/
def entryFor (data : List (String × List ℤ)) (grand : ℤ) (i : ℕ)
    (p : String × ℤ) : RankEntry :=
  { rank := i + 1
    drug_name := p.1
    total_annual_demand := p.2
    average_daily_demand := rnd2 (qmean ((tail30 (seriesOf data p.1)).map fun v => ((v : ℤ) : ℚ)))
    percentage_of_total := rnd2 ((p.2 : ℚ) / (grand : ℚ) * 100) }

/-- Enumerate the selected totals into ranked entries. -/
def buildEntries (data : List (String × List ℤ)) (grand : ℤ) :
    ℕ → List (String × ℤ) → List RankEntry
  | _, [] => []
  | i, p :: ps => entryFor data grand i p :: buildEntries data grand (i + 1) ps

/-- `get_top_drugs_by_demand(top_n)`, with the underlying per-item series
mapping passed explicitly. -/
def get_top_drugs_by_demand (data : List (String × List ℤ)) (top_n : ℕ) :
    List RankEntry :=
  buildEntries data (grandTotal data) 0 ((sortByTot (totalsList data)).take top_n)

/-! ## The external forecast API (`views.api_forecast_data`) -/

/-- `days = min(max(days, 7), 365)`. -/
def clampDays (d : ℤ) : ℤ := min (max d 7) 365

/-- `api_forecast_data`: validate the drug against the available list, default
the `days` parameter to 90, clamp it, and delegate to the forecast engine
(passed as the function `fc`). -/
def api_forecast_data {α : Type} (fc : String → ℤ → α) (available : List String)
    (name : String) (daysParam : Option ℤ) : Except String α :=
  if name ∈ available then
    .ok (fc name (clampDays (daysParam.getD 90)))
  else
    .error "Drug not found"

/-! ## Object identity for `get_historical_data` (`.copy()` semantics)

Data frames live in a store of cells addressed by handles; `.copy()`
allocates a fresh cell. Caller-side mutation is modelled as arbitrary
overwrites of the returned handle's cell. -/

/-- A store of data-frame objects. -/
structure Store where
  cells : List (List Row)

/-- Dereference a handle (out-of-range reads give the empty frame). -/
def readCell (st : Store) (i : ℕ) : List Row := st.cells.getD i []

/-- Overwrite the cell a handle points to. -/
def writeCell (st : Store) (i : ℕ) (v : List Row) : Store := ⟨st.cells.set i v⟩

/-- Allocate a fresh cell, returning its handle. -/
def allocCell (st : Store) (v : List Row) : Store × ℕ :=
  (⟨st.cells ++ [v]⟩, st.cells.length)

/-- `get_historical_data(drug_name=None)`: filter (or not) and return a copy —
a freshly allocated cell, never the stored frame's own handle. -/
def get_historical_data (st : Store) (dataH : ℕ) (name : Option String) :
    Store × ℕ :=
  let df := readCell st dataH
  let result := match name with
    | some n => df.filter fun r => r.1 == n
    | none => df
  allocCell st result

/-- A sequence of caller-side mutations of one handle's cell. -/
def applyWrites (st : Store) (i : ℕ) (ws : List (List Row)) : Store :=
  ws.foldl (fun s v => writeCell s i v) st

/-! ## Concrete scenario data

A 10-point series for item `"X"` with constant value 100, on ten consecutive
days starting Monday 2025-01-06. -/

/-- First date of the concrete constant series (2025-01-06, a Monday). -/
def d0 : ℤ := daysFromCivil 2025 1 6

/-- The constant-100 ten-point series for item `"X"`. -/
def dataX : List Row := (List.range 10).map fun i : ℕ => ("X", d0 + (i : ℤ), 100)

/-- The zero-coefficient model with intercept 100 (the fit of the constant
series). -/
def mX : LinModel := { w1 := 0, w2 := 0, w3 := 0, b := 100 }

theorem histFeatures_dataX : histFeatures dataX "X" =
    [⟨0, 6, 0⟩, ⟨1, 7, 0⟩, ⟨2, 8, 0⟩, ⟨3, 9, 0⟩, ⟨4, 10, 0⟩,
     ⟨5, 11, 1⟩, ⟨6, 12, 1⟩, ⟨7, 13, 0⟩, ⟨8, 14, 0⟩, ⟨9, 15, 0⟩] := by
  decide

theorem histValues_dataX : histValues dataX "X" = List.replicate 10 (100 : ℚ) := by
  decide

theorem futureFeatures_dataX : futureFeatures dataX "X" 5 =
    [⟨10, 16, 0⟩, ⟨11, 17, 0⟩, ⟨12, 18, 1⟩, ⟨13, 19, 1⟩, ⟨14, 20, 0⟩] := by decide

theorem normalEqs_mX : NormalEqs (histFeatures dataX "X") (histValues dataX "X") mX := by
  rw [NormalEqs, histFeatures_dataX, histValues_dataX]
  norm_num [predict, mX, List.replicate]

theorem wNormSq_mX : wNormSq (histFeatures dataX "X") mX = 0 := by
  simp [wNormSq, mX]

theorem isFit_mX : IsFit (histFeatures dataX "X") (histValues dataX "X") mX := by
  refine ⟨normalEqs_mX, fun m' _ => ?_⟩
  rw [wNormSq_mX]
  exact wNormSq_nonneg _ m'

/-- On the constant series, any model the solver can return coincides with
`mX`: the scaled-minimum-norm tie-break forces all coefficients to 0, and the
first normal equation then forces the intercept to the series mean 100. -/
theorem fit_dataX_unique (m : LinModel)
    (hm : IsFit (histFeatures dataX "X") (histValues dataX "X") m) : m = mX := by
  obtain ⟨hne, hmin⟩ := hm
  have h0 : wNormSq (histFeatures dataX "X") m ≤ 0 := by
    have := hmin mX normalEqs_mX
    rwa [wNormSq_mX] at this
  have ha := colVarAdj_pos ((histFeatures dataX "X").map Feat.el)
  have hb := colVarAdj_pos ((histFeatures dataX "X").map Feat.doy)
  have hc := colVarAdj_pos ((histFeatures dataX "X").map Feat.wk)
  rw [wNormSq] at h0
  have n1 := mul_nonneg ha.le (sq_nonneg m.w1)
  have n2 := mul_nonneg hb.le (sq_nonneg m.w2)
  have n3 := mul_nonneg hc.le (sq_nonneg m.w3)
  have t1 : colVarAdj ((histFeatures dataX "X").map Feat.el) * m.w1 ^ 2 = 0 := by
    linarith
  have t2 : colVarAdj ((histFeatures dataX "X").map Feat.doy) * m.w2 ^ 2 = 0 := by
    linarith
  have t3 : colVarAdj ((histFeatures dataX "X").map Feat.wk) * m.w3 ^ 2 = 0 := by
    linarith
  have hw1 : m.w1 = 0 := by
    rcases mul_eq_zero.1 t1 with h | h
    · exact absurd h ha.ne'
    · exact pow_eq_zero_iff (two_ne_zero) |>.1 h
  have hw2 : m.w2 = 0 := by
    rcases mul_eq_zero.1 t2 with h | h
    · exact absurd h hb.ne'
    · exact pow_eq_zero_iff (two_ne_zero) |>.1 h
  have hw3 : m.w3 = 0 := by
    rcases mul_eq_zero.1 t3 with h | h
    · exact absurd h hc.ne'
    · exact pow_eq_zero_iff (two_ne_zero) |>.1 h
  have hb100 : m.b = 100 := by
    have h1 := hne.1
    rw [histFeatures_dataX, histValues_dataX] at h1
    simp [predict, hw1, hw2, hw3, List.replicate] at h1
    linarith
  cases m
  simp_all [mX]

theorem histResiduals_dataX : histResiduals dataX "X" mX = List.replicate 10 0 := by
  rw [histResiduals, histFeatures_dataX, histValues_dataX]
  norm_num [predict, mX, List.replicate]

theorem popVar_residuals_dataX : popVar (histResiduals dataX "X" mX) = 0 := by
  rw [histResiduals_dataX]
  norm_num [popVar, qmean, List.replicate]

theorem isStd_dataX : IsStd (histResiduals dataX "X" mX) 0 := by
  constructor
  · exact le_refl 0
  · rw [popVar_residuals_dataX]
    norm_num

theorem forecastValues_dataX : forecastValues dataX "X" 5 mX = List.replicate 5 100 := by
  rw [forecastValues, futureFeatures_dataX]
  have hmax : max (100 : ℚ) 0 = 100 := max_eq_left (by norm_num)
  norm_num [predict, mX, List.replicate, hmax]

theorem confUpper_dataX : confUpper dataX "X" 5 mX 0 = List.replicate 5 (100 : ℝ) := by
  rw [confUpper, forecastValues_dataX]
  norm_num [List.replicate]

theorem confLower_dataX : confLower dataX "X" 5 mX 0 = List.replicate 5 (100 : ℝ) := by
  rw [confLower, forecastValues_dataX]
  have hmax : max (100 : ℝ) 0 = 100 := max_eq_left (by norm_num)
  norm_num [List.replicate, hmax]

theorem modelScore_dataX : modelScore dataX "X" mX = 1 := by
  rw [modelScore, r2Score, histFeatures_dataX, histValues_dataX]
  norm_num [predict, mX, qmean, List.replicate]

/-- The concrete result record of `forecast_demand` on the constant series. -/
noncomputable def resX : ForecastResult :=
  { forecast_dates := futureDatesOf dataX "X" 5
    forecast_values := forecastValues dataX "X" 5 mX
    confidence_upper := confUpper dataX "X" 5 mX 0
    confidence_lower := confLower dataX "X" 5 mX 0
    historical_dates := histDates dataX "X"
    historical_values := (drugSeries dataX "X").map Prod.snd
    model_score := modelScore dataX "X" mX }

theorem forecastOf_dataX : forecastOf dataX "X" 5 mX 0 = .ok resX := rfl

theorem rankDeficient_dataX : rankDeficient (histFeatures dataX "X") := by
  refine ⟨6, 1, -1, 0, by norm_num, ?_⟩
  rw [histFeatures_dataX]
  intro x hx
  fin_cases hx <;> norm_num

/-! ## Claim C1 -/

/-- C1, counterexample to the claim as stated: on the 10-point constant-100
series, with the (unique) fitted model and zero residual deviation, the
forecast returns a result whose `model_score` is 1, not the claimed 0
(`sklearn`'s `r2_score` returns 1.0 for an exact fit of a constant series). -/
theorem C1_claim_counterexample :
    IsFit (histFeatures dataX "X") (histValues dataX "X") mX ∧
    IsStd (histResiduals dataX "X" mX) 0 ∧
    forecastOf dataX "X" 5 mX 0 = .ok resX ∧
    resX.model_score = 1 ∧ ¬ resX.model_score = 0 := by
  refine ⟨isFit_mX, isStd_dataX, forecastOf_dataX, ?_, ?_⟩
  · exact modelScore_dataX
  · rw [show resX.model_score = modelScore dataX "X" mX from rfl, modelScore_dataX]
    norm_num

/-- C1 (amended): for the 10-point constant-100 series, `forecast("X", 5)`
returns (does not raise) a result whose `forecast_values` are all 100, whose
confidence bounds are all exactly 100 (zero residual standard deviation), and
whose `model_fit_score` is 1 — the value `sklearn`'s R² convention assigns to
an exact fit of a zero-variance series — rather than the claimed 0. -/
theorem C1_constant_series_forecast (m : LinModel) (σ : ℝ)
    (hm : IsFit (histFeatures dataX "X") (histValues dataX "X") m)
    (hσ : IsStd (histResiduals dataX "X" m) σ) :
    ∃ r, forecastOf dataX "X" 5 m σ = .ok r ∧
      r.forecast_values = List.replicate 5 (100 : ℚ) ∧
      r.confidence_upper = List.replicate 5 (100 : ℝ) ∧
      r.confidence_lower = List.replicate 5 (100 : ℝ) ∧
      r.model_score = 1 := by
  have hmx := fit_dataX_unique m hm
  subst hmx
  have hσ0 : σ = 0 := by
    have h2 := hσ.2
    rw [popVar_residuals_dataX] at h2
    push_cast at h2
    exact pow_eq_zero_iff two_ne_zero |>.1 h2
  subst hσ0
  exact ⟨resX, forecastOf_dataX, forecastValues_dataX, confUpper_dataX,
    confLower_dataX, modelScore_dataX⟩

/-- C1 witness: the amended statement instantiated at the actual fit. -/
theorem C1_constant_series_forecast_witness :
    ∃ r, forecastOf dataX "X" 5 mX 0 = .ok r ∧
      r.forecast_values = List.replicate 5 (100 : ℚ) ∧
      r.confidence_upper = List.replicate 5 (100 : ℝ) ∧
      r.confidence_lower = List.replicate 5 (100 : ℝ) ∧
      r.model_score = 1 :=
  C1_constant_series_forecast mX 0 isFit_mX isStd_dataX

/-! ## Claim C2 -/

/-- C2, counterexample to the claim as stated: the constant series' feature
matrix is rank-deficient (its `day_of_year` column is an affine shift of its
`days_since_start` column), yet `forecast_demand` returns a `ForecastResult`,
not a `ModelFitError` — no such error exists anywhere in the code. -/
theorem C2_claim_counterexample :
    rankDeficient (histFeatures dataX "X") ∧
    IsFit (histFeatures dataX "X") (histValues dataX "X") mX ∧
    IsStd (histResiduals dataX "X" mX) 0 ∧
    forecastOf dataX "X" 5 mX 0 = .ok resX :=
  ⟨rankDeficient_dataX, isFit_mX, isStd_dataX, forecastOf_dataX⟩

/-- C2 (amended): a rank-deficient historical feature matrix does not make
the forecast fail: `lstsq` silently selects the minimum-norm least-squares
solution and `forecast_demand` returns a full `ForecastResult`; the only
structured error result is the empty-series (unknown drug) case. -/
theorem C2_rank_deficient_no_error (data : List Row) (name : String) (h : ℕ)
    (m : LinModel) (σ : ℝ)
    (hne : filteredRows data name ≠ [])
    (hrd : rankDeficient (histFeatures data name))
    (hm : IsFit (histFeatures data name) (histValues data name) m)
    (hσ : IsStd (histResiduals data name m) σ) :
    ∃ r, forecastOf data name h m σ = .ok r := by
  unfold forecastOf forecast_demand
  have hcond : (filteredRows data name).isEmpty = false :=
    Bool.eq_false_iff.2 fun hcontra => hne (List.isEmpty_iff.1 hcontra)
  simp only [hcond]
  exact ⟨_, rfl⟩

/-- C2 witness: the amended statement at the concrete rank-deficient series. -/
theorem C2_rank_deficient_no_error_witness :
    ∃ r, forecastOf dataX "X" 5 mX 0 = .ok r :=
  C2_rank_deficient_no_error dataX "X" 5 mX 0 (by decide) rankDeficient_dataX
    isFit_mX isStd_dataX

/-! ## Claim C3 -/

/-- A freshly constructed forecaster holding the concrete series. -/
def sX : ForecasterState := ⟨dataX, none, none⟩

/-- C3, counterexample to the claim as stated: a forecast call is not free of
observable effects on the forecaster — after `forecast_demand`, the instance
state differs from the state before the call (`self.scaler` and `self.model`
now hold parameters fitted during the call). -/
theorem C3_claim_counterexample : (forecast_demand sX "X" 5 mX 0).1 ≠ sX := by
  intro hcontra
  have h1 : (forecast_demand sX "X" 5 mX 0).1.scaler =
      some (scalerFit (histFeatures dataX "X")) := rfl
  rw [hcontra] at h1
  exact Option.noConfusion h1

/-- C3 (amended): a forecast call mutates no global state and leaves the
stored historical dataset unchanged, but it does overwrite the forecaster's
`self.scaler` and `self.model` attributes with parameters fitted to the
current call's item, and these persist on the instance after the call
(visible to, and reusable by, later calls). -/
theorem C3_forecast_state_effects (s : ForecasterState) (name : String) (h : ℕ)
    (m : LinModel) (σ : ℝ) :
    (forecast_demand s name h m σ).1.drugsData = s.drugsData ∧
    (filteredRows s.drugsData name ≠ [] →
      (forecast_demand s name h m σ).1.scaler =
        some (scalerFit (histFeatures s.drugsData name)) ∧
      (forecast_demand s name h m σ).1.model = some m) ∧
    (filteredRows s.drugsData name = [] → (forecast_demand s name h m σ).1 = s) := by
  unfold forecast_demand
  by_cases hcase : (filteredRows s.drugsData name).isEmpty = true
  · rw [if_pos hcase]
    refine ⟨rfl, fun hne => absurd (List.isEmpty_iff.1 hcase) hne, fun _ => rfl⟩
  · rw [if_neg hcase]
    refine ⟨rfl, fun _ => ⟨rfl, rfl⟩, fun hnil => absurd (by rw [hnil]; rfl) hcase⟩

/-- C3 witness: the amended statement at the concrete forecaster state. -/
theorem C3_forecast_state_effects_witness :
    (forecast_demand sX "X" 5 mX 0).1.drugsData = dataX ∧
    (forecast_demand sX "X" 5 mX 0).1.scaler =
      some (scalerFit (histFeatures dataX "X")) := by
  have h := C3_forecast_state_effects sX "X" 5 mX 0
  exact ⟨h.1, (h.2.1 (by decide)).1⟩

/-! ## Claims C6 and C7: shape of a successful forecast result -/

/-- Any successfully returned result is exactly the record the success branch
of `forecast_demand` builds. -/
theorem forecastOf_ok_elim (data : List Row) (name : String) (h : ℕ)
    (m : LinModel) (σ : ℝ) (r : ForecastResult)
    (hr : forecastOf data name h m σ = .ok r) :
    r = { forecast_dates := futureDatesOf data name h
          forecast_values := forecastValues data name h m
          confidence_upper := confUpper data name h m σ
          confidence_lower := confLower data name h m σ
          historical_dates := histDates data name
          historical_values := (drugSeries data name).map Prod.snd
          model_score := modelScore data name m } := by
  unfold forecastOf forecast_demand at hr
  by_cases hcase : (filteredRows data name).isEmpty = true
  · rw [if_pos hcase] at hr
    simp at hr
  · rw [if_neg hcase] at hr
    exact (Except.ok.inj hr).symm

theorem length_futureDatesOf (data : List Row) (name : String) (h : ℕ) :
    (futureDatesOf data name h).length = h := by
  rw [futureDatesOf, List.length_map, List.length_range]

theorem length_futureFeatures (data : List Row) (name : String) (h : ℕ) :
    (futureFeatures data name h).length = h := by
  simp [futureFeatures, length_futureDatesOf]

theorem length_forecastValues (data : List Row) (name : String) (h : ℕ)
    (m : LinModel) : (forecastValues data name h m).length = h := by
  simp [forecastValues, length_futureFeatures]

/-- C6 (confirmed): every successfully returned forecast satisfies
`confidence_lower[i] ≤ forecast_values[i] ≤ confidence_upper[i]` and
`confidence_lower[i] ≥ 0` at every index, where the bounds are the clamped
prediction plus/minus `1.96 · std_residual`. -/
theorem C6_confidence_band (data : List Row) (name : String) (h : ℕ)
    (m : LinModel) (σ : ℝ) (r : ForecastResult)
    (hm : IsFit (histFeatures data name) (histValues data name) m)
    (hσ : IsStd (histResiduals data name m) σ)
    (hr : forecastOf data name h m σ = .ok r) :
    ∀ i, i < h →
      0 ≤ r.confidence_lower.getD i 0 ∧
      r.confidence_lower.getD i 0 ≤ ((r.forecast_values.getD i 0 : ℚ) : ℝ) ∧
      ((r.forecast_values.getD i 0 : ℚ) : ℝ) ≤ r.confidence_upper.getD i 0 := by
  have hrec := forecastOf_ok_elim data name h m σ r hr
  subst hrec
  intro i hi
  have hc : (0 : ℝ) ≤ (196 / 100) * σ := mul_nonneg (by norm_num) hσ.1
  have hifv : i < (forecastValues data name h m).length := by
    rw [length_forecastValues]; exact hi
  have hiff : i < (futureFeatures data name h).length := by
    rw [length_futureFeatures]; exact hi
  have hvl : (forecastValues data name h m).getD i 0 =
      max (predict m ((futureFeatures data name h).get ⟨i, hiff⟩)) 0 := by
    rw [List.getD_eq_getElem _ _ hifv]
    simp [forecastValues]
  have hp0 : (0 : ℚ) ≤ (forecastValues data name h m).getD i 0 := by
    rw [hvl]; exact le_max_right _ _
  have hp0R : (0 : ℝ) ≤ (((forecastValues data name h m).getD i 0 : ℚ) : ℝ) := by
    exact_mod_cast hp0
  have hlow : (confLower data name h m σ).getD i 0 =
      max ((((forecastValues data name h m).getD i 0 : ℚ) : ℝ) - (196 / 100) * σ) 0 := by
    have hic : i < (confLower data name h m σ).length := by
      simp only [confLower, List.length_map]
      exact hifv
    rw [List.getD_eq_getElem _ _ hic, List.getD_eq_getElem _ _ hifv]
    simp [confLower]
  have hup : (confUpper data name h m σ).getD i 0 =
      (((forecastValues data name h m).getD i 0 : ℚ) : ℝ) + (196 / 100) * σ := by
    have hic : i < (confUpper data name h m σ).length := by
      simp only [confUpper, List.length_map]
      exact hifv
    rw [List.getD_eq_getElem _ _ hic, List.getD_eq_getElem _ _ hifv]
    simp [confUpper]
  refine ⟨?_, ?_, ?_⟩
  · rw [hlow]; exact le_max_right _ _
  · rw [hlow]
    have h1 : (((forecastValues data name h m).getD i 0 : ℚ) : ℝ) - (196 / 100) * σ ≤
        (((forecastValues data name h m).getD i 0 : ℚ) : ℝ) := by linarith
    exact max_le h1 hp0R
  · rw [hup]; linarith

/-- C6 witness: the band invariant at the concrete constant series, index 0. -/
theorem C6_confidence_band_witness :
    0 ≤ resX.confidence_lower.getD 0 0 ∧
    resX.confidence_lower.getD 0 0 ≤ ((resX.forecast_values.getD 0 0 : ℚ) : ℝ) ∧
    ((resX.forecast_values.getD 0 0 : ℚ) : ℝ) ≤ resX.confidence_upper.getD 0 0 :=
  C6_confidence_band dataX "X" 5 mX 0 resX isFit_mX isStd_dataX forecastOf_dataX
    0 (by norm_num)

/-- C7 (confirmed): for a nonempty series and positive horizon, the returned
`forecast_dates` have length exactly `h`, are strictly increasing, contiguous
daily, and start the day after the last (maximal) historical date. -/
theorem C7_forecast_dates (data : List Row) (name : String) (h : ℕ)
    (m : LinModel) (σ : ℝ) (r : ForecastResult) (hh : 0 < h)
    (hr : forecastOf data name h m σ = .ok r) :
    r.forecast_dates.length = h ∧
    (∀ i, i + 1 < h →
      r.forecast_dates.getD (i + 1) 0 = r.forecast_dates.getD i 0 + 1) ∧
    (∀ i j, i < j → j < h →
      r.forecast_dates.getD i 0 < r.forecast_dates.getD j 0) ∧
    r.forecast_dates.getD 0 0 = listMax r.historical_dates + 1 := by
  have hrec := forecastOf_ok_elim data name h m σ r hr
  subst hrec
  have hget : ∀ i, i < h → (futureDatesOf data name h).getD i 0 =
      listMax (histDates data name) + 1 + (i : ℤ) := by
    intro i hi
    have hil : i < (futureDatesOf data name h).length := by
      rw [length_futureDatesOf]; exact hi
    rw [List.getD_eq_getElem _ _ hil]
    simp [futureDatesOf]
  refine ⟨length_futureDatesOf data name h, ?_, ?_, ?_⟩
  · intro i hi1
    rw [hget (i + 1) hi1, hget i (by omega)]
    push_cast
    ring
  · intro i j hij hj
    rw [hget i (by omega), hget j hj]
    have : (i : ℤ) < (j : ℤ) := by exact_mod_cast hij
    linarith
  · rw [hget 0 hh]
    simp

/-- C7 witness: the date contract at the concrete series and horizon 5. -/
theorem C7_forecast_dates_witness :
    resX.forecast_dates.length = 5 ∧
    resX.forecast_dates.getD 1 0 = resX.forecast_dates.getD 0 0 + 1 ∧
    resX.forecast_dates.getD 0 0 < resX.forecast_dates.getD 4 0 ∧
    resX.forecast_dates.getD 0 0 = listMax resX.historical_dates + 1 := by
  have h := C7_forecast_dates dataX "X" 5 mX 0 resX (by norm_num) forecastOf_dataX
  exact ⟨h.1, h.2.1 0 (by norm_num), h.2.2.1 0 4 (by norm_num) (by norm_num), h.2.2.2⟩

/-! ## Claim C4: the per-day generated value -/

/-- 2025-12-31: ordinal day 365 of a non-leap year, and a Wednesday. -/
def d31 : ℤ := daysFromCivil 2025 12 31

/-- On 2025-12-31 with a series start 365 days earlier and noise 9997/10200,
the generated product is exactly 999.7 (the seasonal `sin` factor vanishes at
`day_of_year = 365`). -/
theorem genProduct_c4 :
    genProduct 1000 (3 / 10) (1 / 50) (d31 - 365) d31 (9997 / 10200) = 9997 / 10 := by
  unfold genProduct
  have hdoy : dayOfYear d31 = 365 := by decide
  have hwk : isWeekend d31 = false := by decide
  rw [hdoy, hwk]
  have hsin : Real.sin (2 * Real.pi * ((365 : ℤ) : ℝ) / 365) = 0 := by
    have harg : (2 : ℝ) * Real.pi * ((365 : ℤ) : ℝ) / 365 = 2 * Real.pi := by
      push_cast
      field_simp
    rw [harg, Real.sin_two_pi]
  rw [hsin]
  have hds : ((d31 - (d31 - 365) : ℤ) : ℝ) = 365 := by
    push_cast
    ring
  rw [hds]
  norm_num

/-- C4, counterexample to the claim as stated: the source uses Python's
truncating `int(...)`, not rounding — at product 999.7 the code stores 999
while the claimed `max(0, round(...))` formula gives 1000. -/
theorem C4_claim_counterexample :
    genDemand 1000 (3 / 10) (1 / 50) (d31 - 365) d31 (9997 / 10200) = 999 ∧
    genDemandSpec 1000 (3 / 10) (1 / 50) (d31 - 365) d31 (9997 / 10200) = 1000 := by
  constructor
  · unfold genDemand intTrunc
    rw [genProduct_c4]
    have hfl : ⌊(9997 / 10 : ℝ)⌋ = 999 := by
      rw [Int.floor_eq_iff]
      constructor <;> norm_num
    rw [if_pos (by norm_num), hfl]
    norm_num
  · unfold genDemandSpec
    rw [genProduct_c4]
    have hrd : round (9997 / 10 : ℝ) = 1000 := by
      rw [round_eq]
      rw [show (9997 / 10 : ℝ) + 1 / 2 = 10002 / 10 by norm_num]
      rw [Int.floor_eq_iff]
      constructor <;> norm_num
    rw [hrd]
    norm_num

/-- C4 (amended): each generated value equals
`max(0, int_trunc(base · seasonal · trend · noise · weekend))` — truncation
toward zero, i.e., the floor for a nonnegative product, rather than rounding —
and consequently every generated value is ≥ 0. -/
theorem C4_generated_value (base amp rate : ℝ) (start d : ℤ) (noise : ℝ) :
    0 ≤ genDemand base amp rate start d noise ∧
    (0 ≤ genProduct base amp rate start d noise →
      genDemand base amp rate start d noise =
        max 0 ⌊genProduct base amp rate start d noise⌋) ∧
    (genProduct base amp rate start d noise < 0 →
      genDemand base amp rate start d noise = 0) := by
  refine ⟨le_max_left 0 _, fun hpos => ?_, fun hneg => ?_⟩
  · unfold genDemand intTrunc
    rw [if_pos hpos]
  · unfold genDemand intTrunc
    rw [if_neg (not_le.2 hneg)]
    refine max_eq_left (Int.ceil_le.2 ?_)
    push_cast
    exact hneg.le

/-- C4 witness: the amended formula evaluated on the concrete day. -/
theorem C4_generated_value_witness :
    0 ≤ genDemand 1000 (3 / 10) (1 / 50) (d31 - 365) d31 (9997 / 10200) ∧
    genDemand 1000 (3 / 10) (1 / 50) (d31 - 365) d31 (9997 / 10200) =
      max 0 ⌊genProduct 1000 (3 / 10) (1 / 50) (d31 - 365) d31 (9997 / 10200)⌋ := by
  have h := C4_generated_value 1000 (3 / 10) (1 / 50) (d31 - 365) d31 (9997 / 10200)
  exact ⟨h.1, h.2.1 (by rw [genProduct_c4]; norm_num)⟩

/-! ## Claim C9: the external forecast API -/

/-- C9 (confirmed): the API defaults the horizon to 90 when absent, clamps it
into [7, 365] otherwise, and returns a not-found error (never a forecast
result) for an unknown item. -/
theorem C9_api_horizon_clamp (α : Type) (fc : String → ℤ → α)
    (available : List String) (name : String) (p : Option ℤ) :
    (name ∉ available →
      api_forecast_data fc available name p = .error "Drug not found") ∧
    (name ∈ available →
      api_forecast_data fc available name p = .ok (fc name (clampDays (p.getD 90)))) ∧
    (p = none → clampDays (p.getD 90) = 90) ∧
    (∀ d : ℤ, p = some d →
      clampDays (p.getD 90) = min (max d 7) 365 ∧
      7 ≤ clampDays (p.getD 90) ∧ clampDays (p.getD 90) ≤ 365 ∧
      (d < 7 → clampDays (p.getD 90) = 7) ∧
      (365 < d → clampDays (p.getD 90) = 365) ∧
      (7 ≤ d → d ≤ 365 → clampDays (p.getD 90) = d)) := by
  refine ⟨fun hno => ?_, fun hyes => ?_, fun hp => ?_, fun d hp => ?_⟩
  · unfold api_forecast_data
    rw [if_neg hno]
  · unfold api_forecast_data
    rw [if_pos hyes]
  · subst hp
    decide
  · subst hp
    simp only [Option.getD_some]
    unfold clampDays
    refine ⟨rfl, ?_, ?_, ?_, ?_, ?_⟩ <;> omega

/-- C9 witness: a present item with an oversized horizon parameter. -/
theorem C9_api_horizon_clamp_witness :
    api_forecast_data (fun _ d => d) ["X"] "X" (some 400) =
      .ok (clampDays ((some (400 : ℤ)).getD 90)) ∧
    clampDays ((some (400 : ℤ)).getD 90) = 365 := by
  have h := C9_api_horizon_clamp ℤ (fun _ d => d) ["X"] "X" (some 400)
  exact ⟨h.2.1 (by simp), ((h.2.2.2 400 rfl).2.2.2.2.1 (by norm_num))⟩

/-! ## Claim C10: `get_historical_data` returns a copy -/

theorem readCell_writeCell_ne (st : Store) (i j : ℕ) (hij : i ≠ j)
    (v : List Row) : readCell (writeCell st i v) j = readCell st j := by
  unfold readCell writeCell
  rw [List.getD_eq_getElem?_getD, List.getElem?_set_ne hij, ← List.getD_eq_getElem?_getD]

theorem readCell_applyWrites_ne (ws : List (List Row)) (st : Store) (i j : ℕ)
    (hij : i ≠ j) : readCell (applyWrites st i ws) j = readCell st j := by
  induction ws generalizing st with
  | nil => rfl
  | cons w ws ih =>
    show readCell (applyWrites (writeCell st i w) i ws) j = readCell st j
    rw [ih (writeCell st i w), readCell_writeCell_ne st i j hij w]

/-- C10 (confirmed): retrieving historical data returns a freshly allocated
copy: the returned handle differs from the stored dataset's handle, the stored
dataset is unchanged by the retrieval, and any sequence of caller-side
mutations of the returned copy leaves the stored dataset untouched (so later
forecast and summary calls see the original data). -/
theorem C10_history_returns_copy (st : Store) (dataH : ℕ) (name : Option String)
    (ws : List (List Row)) (hlt : dataH < st.cells.length) :
    (get_historical_data st dataH name).2 ≠ dataH ∧
    readCell (get_historical_data st dataH name).1 dataH = readCell st dataH ∧
    readCell (applyWrites (get_historical_data st dataH name).1
        (get_historical_data st dataH name).2 ws) dataH = readCell st dataH := by
  have hsnd : (get_historical_data st dataH name).2 = st.cells.length := rfl
  have hne : (get_historical_data st dataH name).2 ≠ dataH := by
    rw [hsnd]
    omega
  have hread : readCell (get_historical_data st dataH name).1 dataH = readCell st dataH := by
    show ((st.cells ++ [_]).getD dataH []) = st.cells.getD dataH []
    exact List.getD_append _ _ _ _ hlt
  refine ⟨hne, hread, ?_⟩
  rw [readCell_applyWrites_ne ws _ _ _ hne]
  exact hread

/-- C10 witness: the copy guarantee at a concrete one-cell store, with one
mutation that erases the returned copy. -/
theorem C10_history_returns_copy_witness :
    (get_historical_data ⟨[dataX]⟩ 0 none).2 ≠ 0 ∧
    readCell (get_historical_data ⟨[dataX]⟩ 0 none).1 0 = readCell ⟨[dataX]⟩ 0 ∧
    readCell (applyWrites (get_historical_data ⟨[dataX]⟩ 0 none).1
        (get_historical_data ⟨[dataX]⟩ 0 none).2 [[]]) 0 = readCell ⟨[dataX]⟩ 0 :=
  C10_history_returns_copy ⟨[dataX]⟩ 0 none [[]] (by norm_num)

/-! ## Claim C8: monthly growth rate -/

theorem monthMean_nonneg (s : List (ℤ × ℤ)) (hpos : ∀ p ∈ s, 0 ≤ p.2) (k : ℤ) :
    0 ≤ monthMean s k := by
  refine qmean_nonneg ?_
  intro x hx
  obtain ⟨p, hp, rfl⟩ := List.mem_map.1 hx
  have := hpos p (List.mem_of_mem_filter hp)
  exact_mod_cast this

theorem monthlyAvgList_nonneg (s : List (ℤ × ℤ)) (hpos : ∀ p ∈ s, 0 ≤ p.2) :
    ∀ x ∈ monthlyAvgList s, 0 ≤ x := by
  intro x hx
  obtain ⟨k, _, rfl⟩ := List.mem_map.1 hx
  exact monthMean_nonneg s hpos k

theorem prevMonthAvg_nonneg (s : List (ℤ × ℤ)) (hpos : ∀ p ∈ s, 0 ≤ p.2) :
    0 ≤ prevMonthAvg s := by
  unfold prevMonthAvg
  split
  · refine rnd2_nonneg ?_
    rename_i hlen
    have hidx : (monthlyAvgList s).length - 2 < (monthlyAvgList s).length := by omega
    rw [List.getD_eq_getElem _ _ hidx]
    exact monthlyAvgList_nonneg s hpos _ (List.getElem_mem hidx)
  · exact le_refl 0

/-- C8 (confirmed): the growth rate is 0 exactly when the (rounded)
previous-month average is 0 and otherwise is the claimed rounded percentage
formula; a two-month series with means 50 and 75 yields 50.0; a single-point
series yields `previous_month_avg = 0` and `monthly_growth_rate = 0`. -/
theorem C8_monthly_growth_rate :
    (∀ s : List (ℤ × ℤ), (∀ p ∈ s, 0 ≤ p.2) →
      (summarize s).monthly_growth_rate =
        if (summarize s).previous_month_avg = 0 then 0
        else rnd2 (((summarize s).recent_month_avg - (summarize s).previous_month_avg) /
          (summarize s).previous_month_avg * 100)) ∧
    (∀ (s : List (ℤ × ℤ)) (k1 k2 : ℤ), monthsOf s = [k1, k2] →
      monthMean s k1 = 50 → monthMean s k2 = 75 →
      (summarize s).monthly_growth_rate = 50) ∧
    (∀ d v : ℤ, (summarize [(d, v)]).previous_month_avg = 0 ∧
      (summarize [(d, v)]).monthly_growth_rate = 0) := by
  have hproj_g : ∀ s, (summarize s).monthly_growth_rate = monthlyGrowthRate s :=
    fun s => rfl
  have hproj_p : ∀ s, (summarize s).previous_month_avg = prevMonthAvg s :=
    fun s => rfl
  have hproj_r : ∀ s, (summarize s).recent_month_avg = recentMonthAvg s :=
    fun s => rfl
  refine ⟨fun s hpos => ?_, fun s k1 k2 hm h1 h2 => ?_, fun d v => ?_⟩
  · rw [hproj_g, hproj_p, hproj_r]
    unfold monthlyGrowthRate
    by_cases hp : prevMonthAvg s = 0
    · rw [if_pos hp, if_neg (by rw [hp]; exact lt_irrefl 0)]
    · have hlt : 0 < prevMonthAvg s :=
        lt_of_le_of_ne (prevMonthAvg_nonneg s hpos) (Ne.symm hp)
      rw [if_pos hlt, if_neg hp]
  · have hlist : monthlyAvgList s = [50, 75] := by
      rw [monthlyAvgList, hm]
      simp [h1, h2]
    have hrec : recentMonthAvg s = 75 := by
      unfold recentMonthAvg
      rw [hlist, if_neg (by simp)]
      rw [show ([50, 75] : List ℚ).getLastD 0 = 75 from rfl]
      rw [rnd2_eq_of_mul_hundred 75 7500 (by norm_num)]
      norm_num
    have hprev : prevMonthAvg s = 50 := by
      unfold prevMonthAvg
      rw [hlist, if_pos (by norm_num)]
      rw [show (([50, 75] : List ℚ)).getD (([50, 75] : List ℚ).length - 2) 0 = 50 from rfl]
      rw [rnd2_eq_of_mul_hundred 50 5000 (by norm_num)]
      norm_num
    rw [hproj_g]
    unfold monthlyGrowthRate
    rw [hrec, hprev, if_pos (by norm_num)]
    rw [show ((75 : ℚ) - 50) / 50 * 100 = 50 by norm_num]
    rw [rnd2_eq_of_mul_hundred 50 5000 (by norm_num)]
    norm_num
  · have hm1 : monthsOf [(d, v)] = [monthKey d] := rfl
    have hlen : monthlyAvgList [(d, v)] = [monthMean [(d, v)] (monthKey d)] := by
      rw [monthlyAvgList, hm1]
      rfl
    have hprev : prevMonthAvg [(d, v)] = 0 := by
      unfold prevMonthAvg
      rw [hlen]
      norm_num
    refine ⟨by rw [hproj_p]; exact hprev, ?_⟩
    rw [hproj_g]
    unfold monthlyGrowthRate
    rw [hprev]
    norm_num

/-- Concrete two-month series: 2025-01-15 with demand 50, 2025-02-15 with
demand 75. -/
def s2m : List (ℤ × ℤ) := [(daysFromCivil 2025 1 15, 50), (daysFromCivil 2025 2 15, 75)]

theorem monthsOf_s2m : monthsOf s2m = [2025 * 12 + 1, 2025 * 12 + 2] := by decide

theorem monthMean_s2m_jan : monthMean s2m (2025 * 12 + 1) = 50 := by
  have hfil : s2m.filter (fun p => monthKey p.1 == 2025 * 12 + 1) =
      [(daysFromCivil 2025 1 15, 50)] := by decide
  unfold monthMean
  rw [hfil]
  norm_num [qmean]

theorem monthMean_s2m_feb : monthMean s2m (2025 * 12 + 2) = 75 := by
  have hfil : s2m.filter (fun p => monthKey p.1 == 2025 * 12 + 2) =
      [(daysFromCivil 2025 2 15, 75)] := by decide
  unfold monthMean
  rw [hfil]
  norm_num [qmean]

/-- C8 witness: the growth-rate contract at concrete one- and two-month
series. -/
theorem C8_monthly_growth_rate_witness :
    (summarize s2m).monthly_growth_rate =
      (if (summarize s2m).previous_month_avg = 0 then 0
       else rnd2 (((summarize s2m).recent_month_avg - (summarize s2m).previous_month_avg) /
         (summarize s2m).previous_month_avg * 100)) ∧
    (summarize s2m).monthly_growth_rate = 50 ∧
    (summarize [(d0, 7)]).previous_month_avg = 0 ∧
    (summarize [(d0, 7)]).monthly_growth_rate = 0 := by
  have h := C8_monthly_growth_rate
  exact ⟨h.1 s2m (by decide),
    h.2.1 s2m (2025 * 12 + 1) (2025 * 12 + 2) monthsOf_s2m
      monthMean_s2m_jan monthMean_s2m_feb,
    (h.2.2 d0 7).1, (h.2.2 d0 7).2⟩

/-! ## Claim C5: ranking infrastructure

Stable-insertion lemmas: each sort is a permutation; the name-ascending sort
is `≤`-sorted; the total-descending sort of a name-ascending-sorted list is
sorted for the combined order `rankOrd` (total descending, names ascending on
ties — stability of the insertion gives the tie-break). -/

/-- The ranking order: strictly greater total first; on equal totals, the
lexicographically smaller name first. -/
def rankOrd (a b : String × ℤ) : Prop := b.2 < a.2 ∨ (b.2 = a.2 ∧ a.1 < b.1)

theorem mem_insertByTot {x y : String × ℤ} :
    ∀ {l : List (String × ℤ)}, y ∈ insertByTot x l → y = x ∨ y ∈ l := by
  intro l
  induction l with
  | nil =>
    intro hy
    rcases List.mem_singleton.1 hy with rfl
    exact Or.inl rfl
  | cons z zs ih =>
    intro hy
    rw [insertByTot] at hy
    split at hy
    · rcases List.mem_cons.1 hy with rfl | hy'
      · exact Or.inl rfl
      · exact Or.inr hy'
    · rcases List.mem_cons.1 hy with rfl | hy'
      · exact Or.inr (List.mem_cons_self _ _)
      · rcases ih hy' with rfl | hmem
        · exact Or.inl rfl
        · exact Or.inr (List.mem_cons_of_mem z hmem)

theorem pairwise_insertByTot {x : String × ℤ} :
    ∀ {l : List (String × ℤ)}, l.Pairwise rankOrd →
      (∀ y ∈ l, y.2 = x.2 → y.1 < x.1) → (insertByTot x l).Pairwise rankOrd := by
  intro l
  induction l with
  | nil =>
    intro _ _
    simp [insertByTot]
  | cons y ys ih =>
    intro hl hx
    obtain ⟨hyhead, hys⟩ := List.pairwise_cons.1 hl
    rw [insertByTot]
    split
    · rename_i hlt
      refine List.Pairwise.cons ?_ hl
      intro z hz
      rcases List.mem_cons.1 hz with rfl | hz'
      · exact Or.inl hlt
      · rcases hyhead z hz' with h' | ⟨h', _⟩
        · exact Or.inl (h'.trans hlt)
        · exact Or.inl (by rw [h']; exact hlt)
    · rename_i hge
      refine List.Pairwise.cons ?_
        (ih hys (fun z hz hz2 => hx z (List.mem_cons_of_mem y hz) hz2))
      intro z hz
      rcases mem_insertByTot hz with rfl | hz'
      · rcases lt_or_eq_of_le (not_lt.1 hge) with h' | h'
        · exact Or.inl h'
        · exact Or.inr ⟨h', hx y (List.mem_cons_self _ _) h'.symm⟩
      · exact hyhead z hz'

theorem pairwise_sortByTot_aux :
    ∀ (inp acc : List (String × ℤ)), acc.Pairwise rankOrd →
      inp.Pairwise (fun a b => a.1 < b.1) →
      (∀ a ∈ acc, ∀ b ∈ inp, a.1 < b.1) →
      (inp.foldl (fun a x => insertByTot x a) acc).Pairwise rankOrd := by
  intro inp
  induction inp with
  | nil =>
    intro acc hacc _ _
    exact hacc
  | cons x rest ih =>
    intro acc hacc hinp hcross
    rw [List.foldl_cons]
    refine ih (insertByTot x acc) ?_ (List.pairwise_cons.1 hinp).2 ?_
    · exact pairwise_insertByTot hacc
        (fun y hy _ => hcross y hy x (List.mem_cons_self _ _))
    · intro a ha b hb
      rcases mem_insertByTot ha with rfl | ha'
      · exact (List.pairwise_cons.1 hinp).1 b hb
      · exact hcross a ha' b (List.mem_cons_of_mem x hb)

theorem pairwise_sortByTot (l : List (String × ℤ))
    (hl : l.Pairwise fun a b => a.1 < b.1) : (sortByTot l).Pairwise rankOrd :=
  pairwise_sortByTot_aux l [] List.Pairwise.nil hl (by simp)

theorem perm_insertByTot (x : String × ℤ) :
    ∀ l : List (String × ℤ), List.Perm (insertByTot x l) (x :: l) := by
  intro l
  induction l with
  | nil => exact List.Perm.refl _
  | cons y ys ih =>
    rw [insertByTot]
    split
    · exact List.Perm.refl _
    · exact (ih.cons y).trans (List.Perm.swap x y ys)

theorem perm_sortByTot_aux :
    ∀ (inp acc : List (String × ℤ)),
      List.Perm (inp.foldl (fun a x => insertByTot x a) acc) (acc ++ inp) := by
  intro inp
  induction inp with
  | nil =>
    intro acc
    simp
  | cons x rest ih =>
    intro acc
    rw [List.foldl_cons]
    refine (ih (insertByTot x acc)).trans ?_
    refine ((perm_insertByTot x acc).append_right rest).trans ?_
    exact List.perm_middle.symm

theorem perm_sortByTot (l : List (String × ℤ)) : List.Perm (sortByTot l) l :=
  perm_sortByTot_aux l []

theorem mem_insertByName {x y : String × List ℤ} :
    ∀ {l : List (String × List ℤ)}, y ∈ insertByName x l → y = x ∨ y ∈ l := by
  intro l
  induction l with
  | nil =>
    intro hy
    rcases List.mem_singleton.1 hy with rfl
    exact Or.inl rfl
  | cons z zs ih =>
    intro hy
    rw [insertByName] at hy
    split at hy
    · rcases List.mem_cons.1 hy with rfl | hy'
      · exact Or.inl rfl
      · exact Or.inr hy'
    · rcases List.mem_cons.1 hy with rfl | hy'
      · exact Or.inr (List.mem_cons_self _ _)
      · rcases ih hy' with rfl | hmem
        · exact Or.inl rfl
        · exact Or.inr (List.mem_cons_of_mem z hmem)

theorem pairwise_insertByName {x : String × List ℤ} :
    ∀ {l : List (String × List ℤ)}, l.Pairwise (fun a b => a.1 ≤ b.1) →
      (insertByName x l).Pairwise (fun a b => a.1 ≤ b.1) := by
  intro l
  induction l with
  | nil =>
    intro _
    simp [insertByName]
  | cons y ys ih =>
    intro hl
    obtain ⟨hyhead, hys⟩ := List.pairwise_cons.1 hl
    rw [insertByName]
    split
    · rename_i hlt
      refine List.Pairwise.cons ?_ hl
      intro z hz
      rcases List.mem_cons.1 hz with rfl | hz'
      · exact le_of_lt hlt
      · exact (le_of_lt hlt).trans (hyhead z hz')
    · rename_i hge
      refine List.Pairwise.cons ?_ (ih hys)
      intro z hz
      rcases mem_insertByName hz with rfl | hz'
      · exact not_lt.1 hge
      · exact hyhead z hz'

theorem pairwise_sortByName_aux :
    ∀ (inp acc : List (String × List ℤ)), acc.Pairwise (fun a b => a.1 ≤ b.1) →
      (inp.foldl (fun a x => insertByName x a) acc).Pairwise (fun a b => a.1 ≤ b.1) := by
  intro inp
  induction inp with
  | nil =>
    intro acc hacc
    exact hacc
  | cons x rest ih =>
    intro acc hacc
    rw [List.foldl_cons]
    exact ih (insertByName x acc) (pairwise_insertByName hacc)

theorem pairwise_sortByName (l : List (String × List ℤ)) :
    (sortByName l).Pairwise (fun a b => a.1 ≤ b.1) :=
  pairwise_sortByName_aux l [] List.Pairwise.nil

theorem perm_insertByName (x : String × List ℤ) :
    ∀ l : List (String × List ℤ), List.Perm (insertByName x l) (x :: l) := by
  intro l
  induction l with
  | nil => exact List.Perm.refl _
  | cons y ys ih =>
    rw [insertByName]
    split
    · exact List.Perm.refl _
    · exact (ih.cons y).trans (List.Perm.swap x y ys)

theorem perm_sortByName_aux :
    ∀ (inp acc : List (String × List ℤ)),
      List.Perm (inp.foldl (fun a x => insertByName x a) acc) (acc ++ inp) := by
  intro inp
  induction inp with
  | nil =>
    intro acc
    simp
  | cons x rest ih =>
    intro acc
    rw [List.foldl_cons]
    refine (ih (insertByName x acc)).trans ?_
    refine ((perm_insertByName x acc).append_right rest).trans ?_
    exact List.perm_middle.symm

theorem perm_sortByName (l : List (String × List ℤ)) : List.Perm (sortByName l) l :=
  perm_sortByName_aux l []

theorem pairwise_totalsList (data : List (String × List ℤ))
    (hnodup : (data.map Prod.fst).Nodup) :
    (totalsList data).Pairwise fun a b => a.1 < b.1 := by
  rw [totalsList, List.pairwise_map]
  have hle := pairwise_sortByName data
  have hnd : ((sortByName data).map Prod.fst).Nodup :=
    ((perm_sortByName data).map Prod.fst).nodup_iff.2 hnodup
  have hne : (sortByName data).Pairwise fun a b => a.1 ≠ b.1 := List.pairwise_map.1 hnd
  exact (hle.and hne).imp fun hab => lt_of_le_of_ne hab.1 hab.2

theorem buildEntries_map_pair (data : List (String × List ℤ)) (g : ℤ) :
    ∀ (i : ℕ) (l : List (String × ℤ)),
      (buildEntries data g i l).map (fun e => (e.drug_name, e.total_annual_demand)) = l := by
  intro i l
  induction l generalizing i with
  | nil => rfl
  | cons p ps ih => simp [buildEntries, entryFor, ih]

theorem buildEntries_percent (data : List (String × List ℤ)) (g : ℤ) :
    ∀ (i : ℕ) (l : List (String × ℤ)) (e : RankEntry), e ∈ buildEntries data g i l →
      e.percentage_of_total = rnd2 ((e.total_annual_demand : ℚ) / (g : ℚ) * 100) := by
  intro i l
  induction l generalizing i with
  | nil =>
    intro e he
    simp [buildEntries] at he
  | cons p ps ih =>
    intro e he
    rw [buildEntries] at he
    rcases List.mem_cons.1 he with rfl | he'
    · rfl
    · exact ih (i + 1) e he'

theorem buildEntries_share_sum (data : List (String × List ℤ)) (g : ℤ) :
    ∀ (i : ℕ) (l : List (String × ℤ)),
      ((buildEntries data g i l).map fun e =>
        (e.total_annual_demand : ℚ) / (g : ℚ) * 100).sum =
      ((l.map fun p => ((p.2 : ℤ) : ℚ)).sum) * (100 / (g : ℚ)) := by
  intro i l
  induction l generalizing i with
  | nil => simp [buildEntries]
  | cons p ps ih =>
    rw [buildEntries]
    simp only [List.map_cons, List.sum_cons, ih (i + 1)]
    show (entryFor data g i p).total_annual_demand / (g : ℚ) * 100 + _ = _
    rw [show (entryFor data g i p).total_annual_demand = p.2 from rfl]
    ring

theorem qsum_cast (l : List (String × ℤ)) :
    ((l.map fun p => ((p.2 : ℤ) : ℚ)).sum) = (((l.map Prod.snd).sum : ℤ) : ℚ) := by
  induction l with
  | nil => simp
  | cons p ps ih =>
    simp only [List.map_cons, List.sum_cons, ih]
    push_cast
    ring

theorem length_buildEntries (data : List (String × List ℤ)) (g : ℤ) :
    ∀ (i : ℕ) (l : List (String × ℤ)), (buildEntries data g i l).length = l.length := by
  intro i l
  induction l generalizing i with
  | nil => rfl
  | cons p ps ih => simp [buildEntries, ih]

/-- The grand total is order-independent: it is the sum of the per-item
series sums. -/
theorem grandTotal_eq (data : List (String × List ℤ)) :
    grandTotal data = (data.map fun p => p.2.sum).sum := by
  unfold grandTotal totalsList
  have hp := ((perm_sortByName data).map fun p : String × List ℤ => (p.1, p.2.sum)).map
    Prod.snd
  rw [hp.sum_eq, List.map_map]
  rfl

/-- Six items with identical singleton series. -/
def data6 : List (String × List ℤ) :=
  [("A", [1]), ("B", [1]), ("C", [1]), ("D", [1]), ("E", [1]), ("F", [1])]

/-- C5, counterexample to the claim as stated: six items of equal total
demand, with `top_n` covering all of them, yield rounded percentages of 16.67
each, so `sum(percentage_of_total) = 100.02 > 100` — the claimed bound
`sum ≤ 100` (and the claimed equality at full coverage) fails because the
source rounds each share to two decimals before summing. -/
theorem C5_claim_counterexample :
    ((get_top_drugs_by_demand data6 6).map RankEntry.percentage_of_total).sum =
      10002 / 100 ∧
    ¬ ((get_top_drugs_by_demand data6 6).map RankEntry.percentage_of_total).sum ≤ 100 := by
  have hlen6 : (sortByTot (totalsList data6)).length = 6 := by
    rw [(perm_sortByTot (totalsList data6)).length_eq, totalsList, List.length_map,
      (perm_sortByName data6).length_eq]
    rfl
  have htake : (sortByTot (totalsList data6)).take 6 = sortByTot (totalsList data6) :=
    List.take_of_length_le (by rw [hlen6])
  have htots : ∀ p ∈ sortByTot (totalsList data6), p.2 = 1 := by
    intro p hp
    have h1 : p ∈ totalsList data6 := (perm_sortByTot _).subset hp
    obtain ⟨q, hq, rfl⟩ := List.mem_map.1 h1
    have hqd : q ∈ data6 := (perm_sortByName _).subset hq
    fin_cases hqd <;> rfl
  have hG6 : grandTotal data6 = 6 := by
    rw [grandTotal_eq]
    decide
  have hout : get_top_drugs_by_demand data6 6 =
      buildEntries data6 (grandTotal data6) 0 (sortByTot (totalsList data6)) := by
    rw [get_top_drugs_by_demand, htake]
  have hlenout : (get_top_drugs_by_demand data6 6).length = 6 := by
    rw [hout, length_buildEntries, hlen6]
  have hf : ⌊(5000 / 3 : ℚ)⌋ = 1666 := by
    rw [Int.floor_eq_iff]
    constructor <;> norm_num
  have hr : rnd2 (((1 : ℤ) : ℚ) / ((6 : ℤ) : ℚ) * 100) = 1667 / 100 := by
    have harg : (((1 : ℤ) : ℚ) / ((6 : ℤ) : ℚ) * 100) * 100 = 5000 / 3 := by
      push_cast
      norm_num
    unfold rnd2 roundHE
    rw [harg, hf]
    norm_num
  have hperc : ∀ x ∈ (get_top_drugs_by_demand data6 6).map RankEntry.percentage_of_total,
      x = rnd2 (((1 : ℤ) : ℚ) / ((6 : ℤ) : ℚ) * 100) := by
    intro x hx
    obtain ⟨e, he, rfl⟩ := List.mem_map.1 hx
    rw [hout] at he
    have hpe := buildEntries_percent data6 (grandTotal data6) 0 _ e he
    have hmm : (e.drug_name, e.total_annual_demand) ∈ sortByTot (totalsList data6) := by
      rw [← buildEntries_map_pair data6 (grandTotal data6) 0 (sortByTot (totalsList data6))]
      exact List.mem_map_of_mem _ he
    have htot : e.total_annual_demand = 1 := htots _ hmm
    rw [hpe, htot, hG6]
  have hrepl : (get_top_drugs_by_demand data6 6).map RankEntry.percentage_of_total =
      List.replicate 6 (rnd2 (((1 : ℤ) : ℚ) / ((6 : ℤ) : ℚ) * 100)) := by
    have h := List.eq_replicate_of_mem hperc
    rwa [List.length_map, hlenout] at h
  have hsum : ((get_top_drugs_by_demand data6 6).map RankEntry.percentage_of_total).sum =
      10002 / 100 := by
    rw [hrepl, hr, List.sum_replicate]
    norm_num
  exact ⟨hsum, by rw [hsum]; norm_num⟩

/-- C5 (amended): with distinct item names, all demand values nonnegative and
a positive grand total, `get_top_drugs_by_demand` returns items sorted by
total demand descending with ties broken by item name ascending
(deterministically, by stability of the sort over the name-ascending group
index); each ranked item's `percentage_of_total` is the item's exact share
`total / grand_total × 100` rounded to two decimals; and the exact
(unrounded) shares of the returned items sum to at most 100, with equality
when `top_n` covers all items and strictly less when every item's total is
positive and `top_n` does not. (The rounded percentages themselves may sum to
slightly more than 100.) -/
theorem C5_rank_by_total_demand (data : List (String × List ℤ)) (n : ℕ)
    (hnodup : (data.map Prod.fst).Nodup)
    (hvals : ∀ p ∈ data, ∀ v ∈ p.2, 0 ≤ v)
    (hG : 0 < grandTotal data) :
    (get_top_drugs_by_demand data n).Pairwise (fun a b =>
      b.total_annual_demand < a.total_annual_demand ∨
      (b.total_annual_demand = a.total_annual_demand ∧ a.drug_name < b.drug_name)) ∧
    (∀ e ∈ get_top_drugs_by_demand data n,
      e.percentage_of_total =
        rnd2 ((e.total_annual_demand : ℚ) / (grandTotal data : ℚ) * 100)) ∧
    ((get_top_drugs_by_demand data n).map fun e =>
      (e.total_annual_demand : ℚ) / (grandTotal data : ℚ) * 100).sum ≤ 100 ∧
    (data.length ≤ n →
      ((get_top_drugs_by_demand data n).map fun e =>
        (e.total_annual_demand : ℚ) / (grandTotal data : ℚ) * 100).sum = 100) ∧
    ((∀ p ∈ data, 0 < p.2.sum) → n < data.length →
      ((get_top_drugs_by_demand data n).map fun e =>
        (e.total_annual_demand : ℚ) / (grandTotal data : ℚ) * 100).sum < 100) := by
  have hGq : (0 : ℚ) < ((grandTotal data : ℤ) : ℚ) := by exact_mod_cast hG
  have htl_nonneg : ∀ p ∈ totalsList data, (0 : ℤ) ≤ p.2 := by
    intro p hp
    obtain ⟨q, hq, rfl⟩ := List.mem_map.1 hp
    exact List.sum_nonneg fun v hv => hvals q ((perm_sortByName data).subset hq) v hv
  have hTL_nonneg : ∀ p ∈ sortByTot (totalsList data), (0 : ℤ) ≤ p.2 :=
    fun p hp => htl_nonneg p ((perm_sortByTot _).subset hp)
  have hsum_all : ((sortByTot (totalsList data)).map Prod.snd).sum = grandTotal data :=
    ((perm_sortByTot (totalsList data)).map Prod.snd).sum_eq
  have hlenTL : (sortByTot (totalsList data)).length = data.length := by
    rw [(perm_sortByTot (totalsList data)).length_eq, totalsList, List.length_map,
      (perm_sortByName data).length_eq]
  -- the key sum decomposition
  have hsplit := List.sum_take_add_sum_drop ((sortByTot (totalsList data)).map Prod.snd) n
  have hshare : ((get_top_drugs_by_demand data n).map fun e =>
      (e.total_annual_demand : ℚ) / (grandTotal data : ℚ) * 100).sum =
      (((((sortByTot (totalsList data)).map Prod.snd).take n).sum : ℤ) : ℚ) *
        (100 / ((grandTotal data : ℤ) : ℚ)) := by
    rw [show get_top_drugs_by_demand data n =
      buildEntries data (grandTotal data) 0 ((sortByTot (totalsList data)).take n) from rfl]
    rw [buildEntries_share_sum, qsum_cast, List.map_take]
  refine ⟨?_, ?_, ?_, ?_, ?_⟩
  · have hordtake : ((sortByTot (totalsList data)).take n).Pairwise rankOrd :=
      (pairwise_sortByTot (totalsList data) (pairwise_totalsList data hnodup)).sublist
        (List.take_sublist _ _)
    have h1 : ((get_top_drugs_by_demand data n).map
        (fun e => (e.drug_name, e.total_annual_demand))).Pairwise rankOrd := by
      rw [show get_top_drugs_by_demand data n =
        buildEntries data (grandTotal data) 0 ((sortByTot (totalsList data)).take n) from rfl]
      rw [buildEntries_map_pair]
      exact hordtake
    exact List.pairwise_map.1 h1
  · intro e he
    exact buildEntries_percent data (grandTotal data) 0 _ e he
  · rw [hshare]
    have hdrop_nonneg : 0 ≤ (((sortByTot (totalsList data)).map Prod.snd).drop n).sum := by
      refine List.sum_nonneg ?_
      intro x hx
      obtain ⟨p, hp, rfl⟩ := List.mem_map.1 (List.mem_of_mem_drop hx)
      exact hTL_nonneg p hp
    have hS_le : (((sortByTot (totalsList data)).map Prod.snd).take n).sum ≤
        grandTotal data := by
      omega
    have hSq : ((((((sortByTot (totalsList data)).map Prod.snd).take n).sum : ℤ)) : ℚ) ≤
        ((grandTotal data : ℤ) : ℚ) := by exact_mod_cast hS_le
    calc (((((sortByTot (totalsList data)).map Prod.snd).take n).sum : ℤ) : ℚ) *
          (100 / ((grandTotal data : ℤ) : ℚ))
        ≤ ((grandTotal data : ℤ) : ℚ) * (100 / ((grandTotal data : ℤ) : ℚ)) :=
          mul_le_mul_of_nonneg_right hSq (by positivity)
      _ = 100 := by field_simp
  · intro hn
    rw [hshare]
    have htake : ((sortByTot (totalsList data)).map Prod.snd).take n =
        (sortByTot (totalsList data)).map Prod.snd := by
      refine List.take_of_length_le ?_
      rw [List.length_map, hlenTL]
      exact hn
    rw [htake, hsum_all]
    field_simp
  · intro hpos hn
    rw [hshare]
    have hdrop_ne : ((sortByTot (totalsList data)).map Prod.snd).drop n ≠ [] := by
      rw [Ne, List.drop_eq_nil_iff, List.length_map, hlenTL]
      omega
    have hdrop_pos : 0 < (((sortByTot (totalsList data)).map Prod.snd).drop n).sum := by
      refine List.sum_pos _ ?_ hdrop_ne
      intro x hx
      obtain ⟨p, hp, rfl⟩ := List.mem_map.1 (List.mem_of_mem_drop hx)
      have hptl : p ∈ totalsList data := (perm_sortByTot _).subset hp
      obtain ⟨q, hq, rfl⟩ := List.mem_map.1 hptl
      exact hpos q ((perm_sortByName data).subset hq)
    have hS_lt : (((sortByTot (totalsList data)).map Prod.snd).take n).sum <
        grandTotal data := by
      omega
    have hSq : ((((((sortByTot (totalsList data)).map Prod.snd).take n).sum : ℤ)) : ℚ) <
        ((grandTotal data : ℤ) : ℚ) := by exact_mod_cast hS_lt
    calc (((((sortByTot (totalsList data)).map Prod.snd).take n).sum : ℤ) : ℚ) *
          (100 / ((grandTotal data : ℤ) : ℚ))
        < ((grandTotal data : ℤ) : ℚ) * (100 / ((grandTotal data : ℤ) : ℚ)) :=
          mul_lt_mul_of_pos_right hSq (by positivity)
      _ = 100 := by field_simp

/-- Two items with distinct names and positive totals. -/
def dataW : List (String × List ℤ) := [("A", [3]), ("B", [1])]

/-- C5 witness: the amended ranking contract at a concrete two-item mapping
with `top_n = 1`. -/
theorem C5_rank_by_total_demand_witness :
    ((get_top_drugs_by_demand dataW 1).map fun e =>
      (e.total_annual_demand : ℚ) / (grandTotal dataW : ℚ) * 100).sum ≤ 100 ∧
    (∀ e ∈ get_top_drugs_by_demand dataW 1,
      e.percentage_of_total =
        rnd2 ((e.total_annual_demand : ℚ) / (grandTotal dataW : ℚ) * 100)) ∧
    ((get_top_drugs_by_demand dataW 1).map fun e =>
      (e.total_annual_demand : ℚ) / (grandTotal dataW : ℚ) * 100).sum < 100 := by
  have h := C5_rank_by_total_demand dataW 1 (by decide) (by decide)
    (by rw [grandTotal_eq]; decide)
  exact ⟨h.2.2.1, h.2.1, h.2.2.2.2 (by decide) (by decide)⟩

end Drugtrack
